import Mathlib

/-!
# The `juju_cloud` resource of the Terraform provider for Juju

A shallow embedding of `internal/provider/resource_cloud.go` (schema attributes, the four
lifecycle handlers, `parseRegions`, `parseRegionConfig`, `prepareCloudInput`) over an abstract
model of the client of `internal/juju/clouds.go`.

Conventions of the embedding:

* a Go `string` is a Lean `String`;
* a Go run-time panic is the `error` branch of `Except Panic`;
* a Go `error` value is `Option Error` (`none` is `nil`);
* a Go map `map[string]T` is an association list with pairwise distinct keys, written to with
  `GoMap.set`; a map variable that may still be `nil` is an `Option` of such a list;
* a Go slice whose nil-ness is visible in the source is a `Slice` (`none` is the nil slice);
* `diag.Diagnostics` is the list of the errors it carries, `diag.FromErr err` is `[err]`.
-/

namespace Juju

/-! ## Go values -/

/-- The run-time panics the source can raise. -/
inductive Panic
  | typeAssertion
  | assignmentToNilMap
  | indexOutOfRange
deriving DecidableEq

deriving instance DecidableEq for Except

/-- An `error` value, identified with its message. -/
abbrev Error := String

/-- The type `diag.Diagnostics`: the errors reported to the configuration engine. -/
abbrev Diagnostics := List Error

/-- A map `map[string]interface{}` whose values are strings (the `config` attributes, `cloud.Attrs`). -/
abbrev Attrs := List (String × String)

/-- The `interface{}` values found in list and set elements of the resource data. -/
inductive Any
  | str (s : String)
  | bool (b : Bool)
  | attrs (m : Attrs)
deriving DecidableEq

/-- A map `map[string]interface{}`: one element of a set attribute. -/
abbrev GoMap := List (String × Any)

/-- The assignment `m[k] = v` on a non-nil map. -/
def GoMap.set {β : Type} (m : List (String × β)) (k : String) (v : β) : List (String × β) :=
  m.filter (fun p => p.1 != k) ++ [(k, v)]

/-- The index expression `m[k]`; `none` is the nil interface of an absent key. -/
def GoMap.get {β : Type} (m : List (String × β)) (k : String) : Option β :=
  m.lookup k

/-- The assignment `m[k] = v` on a map variable that may be nil: it panics on the nil map. -/
def GoMap.assign {β : Type} (m : Option (List (String × β))) (k : String) (v : β) :
    Except Panic (Option (List (String × β))) :=
  match m with
  | none => .error .assignmentToNilMap
  | some l => .ok (some (GoMap.set l k v))

/-- The type assertion `x.(string)` in its one-value form: it panics unless `x` holds a string. -/
def Any.assertString (x : Option Any) : Except Panic String :=
  match x with
  | some (.str s) => .ok s
  | _ => .error .typeAssertion

/-- The type assertion `val, ok := x.(string)` in its two-value form. -/
def Any.asString (x : Option Any) : String × Bool :=
  match x with
  | some (.str s) => (s, true)
  | _ => ("", false)

/-- The type assertion `x.(map[string]interface{})` in its one-value form. -/
def Any.assertAttrs (x : Option Any) : Except Panic Attrs :=
  match x with
  | some (.attrs m) => .ok m
  | _ => .error .typeAssertion

/-- A Go slice: `none` is the nil slice, `some l` a non-nil slice with elements `l`. -/
abbrev Slice (α : Type) := Option (List α)

/-- The elements a `range` loop visits; a nil slice has none. -/
def Slice.toList {α : Type} (s : Slice α) : List α := s.getD []

/-- The expression `make([]T, 0)`. -/
def Slice.make0 {α : Type} : Slice α := some []

/-- The expression `append(s, x)`: the result is never nil. -/
def Slice.append {α : Type} (s : Slice α) (x : α) : Slice α := some (s.toList ++ [x])

end Juju

/-! ## `strings.Split` -/

namespace strings

/-- Cut a list of characters at every occurrence of `sep`. -/
def splitChars (sep : Char) : List Char → List (List Char)
  | [] => [[]]
  | c :: cs =>
    if c = sep then [] :: splitChars sep cs
    else
      match splitChars sep cs with
      | [] => [[c]]
      | h :: t => (c :: h) :: t

/-- The function `strings.Split(s, sep)` for a separator of one character, the only kind the
source uses (`":"`): the substrings between the separators, `[s]` when `s` has none. -/
def Split (s : String) (sep : Char) : List String :=
  (splitChars sep s.data).map String.mk

end strings

namespace Juju

/-! ## The remote data structures (`jujucloud`, `params`) -/

/-- The struct `jujucloud.Region`. -/
structure Region where
  Name : String
  Endpoint : String
  IdentityEndpoint : String
  StorageEndpoint : String
deriving DecidableEq

/-- The struct `jujucloud.Cloud`, as returned by the controller. -/
structure Cloud where
  Name : String
  Type_ : String
  HostCloudRegion : String
  AuthTypes : List String
  Endpoint : String
  IdentityEndpoint : String
  StorageEndpoint : String
  Regions : Slice Region
  Config : Attrs
  RegionConfig : List (String × Attrs)
  CACertificates : List String
  SkipTLSVerify : Bool
  IsControllerCloud : Bool
deriving DecidableEq

namespace params

/-- The struct `params.CloudRegion`. -/
structure CloudRegion where
  Name : String
  Endpoint : String
  IdentityEndpoint : String
  StorageEndpoint : String
deriving DecidableEq

/-- The struct `params.Cloud`, as submitted to the controller. -/
structure Cloud where
  Type_ : String
  HostCloudRegion : String
  AuthTypes : List String
  Endpoint : String
  IdentityEndpoint : String
  StorageEndpoint : String
  Regions : Slice CloudRegion
  CACertificates : List String
  SkipTLSVerify : Bool
  Config : Attrs
  RegionConfig : Option (List (String × Attrs))
  IsControllerCloud : Bool
deriving DecidableEq

/-- The zero value `var cloudParams params.Cloud`. -/
def Cloud.zero : Cloud :=
  { Type_ := "", HostCloudRegion := "", AuthTypes := [], Endpoint := "", IdentityEndpoint := "",
    StorageEndpoint := "", Regions := none, CACertificates := [], SkipTLSVerify := false,
    Config := [], RegionConfig := none, IsControllerCloud := false }

end params

/-! ## The resource data (`*schema.ResourceData`) -/

/-- The resource data handed to a lifecycle handler: the resource ID, the value `d.Get` returns
for each attribute of the schema, and the keys for which `d.HasChange` answers true.
Top-level attributes carry the Go type the schema gives them, so the type assertion on the
result of `d.Get` succeeds; the elements of lists and sets are `interface{}` values. -/
structure ResourceData where
  Id : String
  name : String
  type : String
  host_cloud_region : String
  auth_types : List Any
  endpoint : String
  identity_endpoint : String
  storage_endpoint : String
  regions : List GoMap
  config : Attrs
  region_config : List GoMap
  ca_certificates : List Any
  skip_tls_verify : Bool
  is_controller_cloud : Bool
  changed : List String
deriving DecidableEq

/-- The method `d.HasChange(key)`. -/
def ResourceData.HasChange (d : ResourceData) (key : String) : Bool :=
  decide (key ∈ d.changed)

/-! ## `parseRegions` and `parseRegionConfig` -/

/-- The body of the loop of `parseRegions`: the map built for one region. -/
def parseRegions.entry (region : Region) : GoMap :=
  let r : GoMap := []
  let r := GoMap.set r "name" (Any.str region.Name)
  let r := if region.Endpoint ≠ "" then GoMap.set r "endpoint" (Any.str region.Endpoint) else r
  let r := if region.IdentityEndpoint ≠ "" then
    GoMap.set r "identity_endpoint" (Any.str region.IdentityEndpoint) else r
  let r := if region.StorageEndpoint ≠ "" then
    GoMap.set r "storage_endpoint" (Any.str region.StorageEndpoint) else r
  r

/-- The function `parseRegions`: flatten a region list into the shape of the `regions` attribute. -/
def parseRegions (regions : Slice Region) : Slice GoMap :=
  regions.toList.foldl (fun cloudRegions region => Slice.append cloudRegions (parseRegions.entry region))
    Slice.make0

/-- The function `parseRegionConfig`; the map is ranged over in the order of its association
list (Go leaves the order unspecified, and the result feeds a set attribute). -/
def parseRegionConfig (regionConfig : List (String × Attrs)) : Slice GoMap :=
  regionConfig.foldl
    (fun cloudRegionConfig rc =>
      let r : GoMap := []
      let r := GoMap.set r "name" (Any.str rc.1)
      let r := GoMap.set r "config" (Any.attrs rc.2)
      Slice.append cloudRegionConfig r)
    Slice.make0

/-! ## `prepareCloudInput` -/

/-- The loop `for i, x := range xs { out[i] = x.(string) }` over a list of `interface{}` values. -/
def assertStrings : List Any → Except Panic (List String)
  | [] => .ok []
  | x :: xs =>
    match Any.assertString (some x) with
    | .error p => .error p
    | .ok s =>
      match assertStrings xs with
      | .error p => .error p
      | .ok ss => .ok (s :: ss)

/-- The body of the `regions` loop of `prepareCloudInput`: the `params.CloudRegion` built from
one element of the set. The source tests `identity_endpoint` twice and `storage_endpoint`
never. -/
def prepareCloudInput.cloudRegion (region : GoMap) : Except Panic params.CloudRegion :=
  match Any.assertString (GoMap.get region "name") with
  | .error p => .error p
  | .ok name =>
    let cloudRegion : params.CloudRegion :=
      { Name := name, Endpoint := "", IdentityEndpoint := "", StorageEndpoint := "" }
    let cloudRegion :=
      match Any.asString (GoMap.get region "endpoint") with
      | (val, true) => { cloudRegion with Endpoint := val }
      | (_, false) => cloudRegion
    let cloudRegion :=
      match Any.asString (GoMap.get region "identity_endpoint") with
      | (val, true) => { cloudRegion with IdentityEndpoint := val }
      | (_, false) => cloudRegion
    let cloudRegion :=
      match Any.asString (GoMap.get region "identity_endpoint") with
      | (val, true) => { cloudRegion with IdentityEndpoint := val }
      | (_, false) => cloudRegion
    .ok cloudRegion

/-- The `regions` loop of `prepareCloudInput`: each iteration builds a `cloudRegion` and drops
it; the source has no `append`, so `cloudRegions` leaves the loop as it entered. -/
def prepareCloudInput.regionsLoop (cloudRegions : Slice params.CloudRegion) :
    List GoMap → Except Panic (Slice params.CloudRegion)
  | [] => .ok cloudRegions
  | r :: rest =>
    match prepareCloudInput.cloudRegion r with
    | .error p => .error p
    | .ok _ => prepareCloudInput.regionsLoop cloudRegions rest

/-- The `region_config` loop of `prepareCloudInput`: both type assertions are evaluated, then
the entry is assigned into `cloudRegionConfig`. -/
def prepareCloudInput.regionConfigLoop (cloudRegionConfig : Option (List (String × Attrs))) :
    List GoMap → Except Panic (Option (List (String × Attrs)))
  | [] => .ok cloudRegionConfig
  | region :: rest =>
    match Any.assertString (GoMap.get region "name") with
    | .error p => .error p
    | .ok name =>
      match Any.assertAttrs (GoMap.get region "config") with
      | .error p => .error p
      | .ok config =>
        match GoMap.assign cloudRegionConfig name config with
        | .error p => .error p
        | .ok m => prepareCloudInput.regionConfigLoop m rest

/-- The function `prepareCloudInput`: shape the attributes of the resource data into the
`params.Cloud` submitted to the controller. -/
def prepareCloudInput (d : ResourceData) : Except Panic params.Cloud :=
  let cloudParams := params.Cloud.zero
  let cloudParams := { cloudParams with Type_ := d.type }
  let hostCloudRegion := d.host_cloud_region
  let cloudParams :=
    if hostCloudRegion ≠ "" then { cloudParams with HostCloudRegion := hostCloudRegion }
    else cloudParams
  match assertStrings d.auth_types with
  | .error p => .error p
  | .ok cloudAuthTypes =>
    let cloudParams := { cloudParams with AuthTypes := cloudAuthTypes }
    let endpoint := d.endpoint
    let cloudParams :=
      if endpoint ≠ "" then { cloudParams with Endpoint := endpoint } else cloudParams
    let identityEndpoint := d.identity_endpoint
    let cloudParams :=
      if identityEndpoint ≠ "" then { cloudParams with IdentityEndpoint := identityEndpoint }
      else cloudParams
    let storageEndpoint := d.storage_endpoint
    let cloudParams :=
      if storageEndpoint ≠ "" then { cloudParams with StorageEndpoint := storageEndpoint }
      else cloudParams
    let regions := d.regions
    match (if regions.length > 0 then
        match prepareCloudInput.regionsLoop Slice.make0 regions with
        | .error p => .error p
        | .ok cloudRegions => .ok { cloudParams with Regions := cloudRegions }
      else .ok cloudParams : Except Panic params.Cloud) with
    | .error p => .error p
    | .ok cloudParams =>
      let regionConfig := d.region_config
      match (if regionConfig.length > 0 then
          match prepareCloudInput.regionConfigLoop none regionConfig with
          | .error p => .error p
          | .ok cloudRegionConfig => .ok { cloudParams with RegionConfig := cloudRegionConfig }
        else .ok cloudParams : Except Panic params.Cloud) with
      | .error p => .error p
      | .ok cloudParams =>
        let configField := d.config
        let cloudParams :=
          if configField.length > 0 then { cloudParams with Config := configField }
          else cloudParams
        let caCertificates := d.ca_certificates
        match (if caCertificates.length > 0 then
            match assertStrings caCertificates with
            | .error p => .error p
            | .ok cloudCACertificates =>
              .ok { cloudParams with CACertificates := cloudCACertificates }
          else .ok cloudParams : Except Panic params.Cloud) with
        | .error p => .error p
        | .ok cloudParams =>
          .ok { cloudParams with SkipTLSVerify := d.skip_tls_verify }

/-- Whether an `interface{}` value holds a string. -/
def Any.isString : Option Any → Bool
  | some (.str _) => true
  | _ => false

/-- Whether an `interface{}` value holds a map. -/
def Any.isAttrs : Option Any → Bool
  | some (.attrs _) => true
  | _ => false

/-- Whether the resource data conforms to the schema of `resourceCloud`: the elements of
`auth_types` and `ca_certificates` are strings; a `regions` element has a string `name` and its
optional keys, where present, are strings; a `region_config` element has a string `name` and a
map `config`. -/
def schemaConforming (d : ResourceData) : Bool :=
  d.auth_types.all (fun a => Any.isString (some a)) &&
  d.ca_certificates.all (fun a => Any.isString (some a)) &&
  d.regions.all (fun r =>
    Any.isString (GoMap.get r "name") &&
    ["endpoint", "identity_endpoint", "storage_endpoint"].all (fun k =>
      (GoMap.get r k).isNone || Any.isString (GoMap.get r k))) &&
  d.region_config.all (fun r =>
    Any.isString (GoMap.get r "name") && Any.isAttrs (GoMap.get r "config"))

/-! ## The client of `internal/juju/clouds.go` -/

/-- The struct `juju.ReadCloudInput`. -/
structure ReadCloudInput where
  Name : String
deriving DecidableEq

/-- The struct `juju.CreateCloudInput`. -/
structure CreateCloudInput where
  Name : String
  Params : params.Cloud
deriving DecidableEq

/-- The struct `juju.UpdateCloudInput`. -/
structure UpdateCloudInput where
  Name : String
  Params : params.Cloud
deriving DecidableEq

/-- The struct `juju.RemoveCloudInput`. -/
structure RemoveCloudInput where
  Name : String
deriving DecidableEq

/-- The four methods of `cloudsClient`, each a transition of the controller state `σ`: they
reach the controller through a connection the repository does not own, so a handler sees
them only through their results. -/
structure Client (σ : Type) where
  ReadCloud : ReadCloudInput → σ → Except Error Cloud × σ
  CreateCloud : CreateCloudInput → σ → Option Error × σ
  UpdateCloud : UpdateCloudInput → σ → Option Error × σ
  RemoveCloud : RemoveCloudInput → σ → Option Error × σ

/-- One call of a handler to the client. -/
inductive Call
  | ReadCloud (input : ReadCloudInput)
  | CreateCloud (input : CreateCloudInput)
  | UpdateCloud (input : UpdateCloudInput)
  | RemoveCloud (input : RemoveCloudInput)
deriving DecidableEq

/-- What one run of a lifecycle handler leaves behind: the diagnostics it returned (or the
panic that ended it), the resource data, the controller state, and the client calls it made,
in order. -/
structure Run (σ : Type) where
  diags : Except Panic Diagnostics
  d : ResourceData
  ctrl : σ
  calls : List Call
deriving DecidableEq

/-! ## The lifecycle handlers -/

/-- The handler `resourceCloudRead`. A `d.Set` of a value of the attribute's own type does not
fail, so its error branches are not represented. -/
def resourceCloudRead {σ : Type} (client : Client σ) (d : ResourceData) (s : σ) : Run σ :=
  let id := strings.Split d.Id ':'
  match id[1]? with
  | none => { diags := .error .indexOutOfRange, d := d, ctrl := s, calls := [] }
  | some name =>
    let input : ReadCloudInput := { Name := name }
    match client.ReadCloud input s with
    | (.error err, s) => { diags := .ok [err], d := d, ctrl := s, calls := [.ReadCloud input] }
    | (.ok response, s) =>
      let d := { d with name := response.Name }
      let d := { d with type := response.Type_ }
      let d := { d with host_cloud_region := response.HostCloudRegion }
      let d := { d with auth_types := response.AuthTypes.map Any.str }
      let d := { d with endpoint := response.Endpoint }
      let d := { d with identity_endpoint := response.IdentityEndpoint }
      let d := { d with storage_endpoint := response.StorageEndpoint }
      let d := { d with config := response.Config }
      let d := { d with ca_certificates := response.CACertificates.map Any.str }
      let d := { d with skip_tls_verify := response.SkipTLSVerify }
      let regions := parseRegions response.Regions
      let d := { d with regions := regions.toList }
      let regionConfig := parseRegionConfig response.RegionConfig
      let d := { d with region_config := regionConfig.toList }
      { diags := .ok [], d := d, ctrl := s, calls := [.ReadCloud input] }

/-- The handler `resourceCloudCreate`. The diagnostics of the `resourceCloudRead` it ends with
are dropped by the source; a panic inside it would still unwind through the caller. -/
def resourceCloudCreate {σ : Type} (client : Client σ) (d : ResourceData) (s : σ) : Run σ :=
  match prepareCloudInput d with
  | .error p => { diags := .error p, d := d, ctrl := s, calls := [] }
  | .ok cloudParams =>
    let cloud : CreateCloudInput := { Name := d.name, Params := cloudParams }
    match client.CreateCloud cloud s with
    | (some err, s) => { diags := .ok [err], d := d, ctrl := s, calls := [.CreateCloud cloud] }
    | (none, s) =>
      let d := { d with Id := "cloud:" ++ cloud.Name }
      let r := resourceCloudRead client d s
      match r.diags with
      | .error p =>
        { diags := .error p, d := r.d, ctrl := r.ctrl, calls := .CreateCloud cloud :: r.calls }
      | .ok _ =>
        { diags := .ok [], d := r.d, ctrl := r.ctrl, calls := .CreateCloud cloud :: r.calls }

/-- The handler `resourceCloudUpdate`. -/
def resourceCloudUpdate {σ : Type} (client : Client σ) (d : ResourceData) (s : σ) : Run σ :=
  let anyChange := false
  let anyChange := if d.HasChange "host_cloud_region" then true else anyChange
  let anyChange := if d.HasChange "auth_types" then true else anyChange
  let anyChange := if d.HasChange "endpoint" then true else anyChange
  let anyChange := if d.HasChange "identity_endpoint" then true else anyChange
  let anyChange := if d.HasChange "storage_endpoint" then true else anyChange
  let anyChange := if d.HasChange "config" then true else anyChange
  let anyChange := if d.HasChange "ca_certificates" then true else anyChange
  let anyChange := if d.HasChange "skip_tls_verify" then true else anyChange
  let anyChange := if d.HasChange "regions" then true else anyChange
  let anyChange := if d.HasChange "region_config" then true else anyChange
  if !anyChange then { diags := .ok [], d := d, ctrl := s, calls := [] }
  else
    match prepareCloudInput d with
    | .error p => { diags := .error p, d := d, ctrl := s, calls := [] }
    | .ok cloudParams =>
      let cloud : UpdateCloudInput := { Name := d.name, Params := cloudParams }
      match client.UpdateCloud cloud s with
      | (some err, s) => { diags := .ok [err], d := d, ctrl := s, calls := [.UpdateCloud cloud] }
      | (none, s) => { diags := .ok [], d := d, ctrl := s, calls := [.UpdateCloud cloud] }

/-- The handler `resourceCloudDelete`. -/
def resourceCloudDelete {σ : Type} (client : Client σ) (d : ResourceData) (s : σ) : Run σ :=
  let name := d.name
  let input : RemoveCloudInput := { Name := name }
  match client.RemoveCloud input s with
  | (some err, s) => { diags := .ok [err], d := d, ctrl := s, calls := [.RemoveCloud input] }
  | (none, s) =>
    let d := { d with Id := "" }
    { diags := .ok [], d := d, ctrl := s, calls := [.RemoveCloud input] }

/-! ## A controller that stores what it is given -/

/-- The cloud a controller builds field for field from a name and the submitted `params.Cloud`
(what `common.CloudFromParams` of the Juju library does in `CreateCloud` and `UpdateCloud`). -/
def CloudFromParams (cloudName : String) (p : params.Cloud) : Cloud :=
  { Name := cloudName
    Type_ := p.Type_
    HostCloudRegion := p.HostCloudRegion
    AuthTypes := p.AuthTypes
    Endpoint := p.Endpoint
    IdentityEndpoint := p.IdentityEndpoint
    StorageEndpoint := p.StorageEndpoint
    Regions := some (p.Regions.toList.map (fun region =>
      { Name := region.Name, Endpoint := region.Endpoint,
        IdentityEndpoint := region.IdentityEndpoint, StorageEndpoint := region.StorageEndpoint }))
    Config := p.Config
    RegionConfig := p.RegionConfig.getD []
    CACertificates := p.CACertificates
    SkipTLSVerify := p.SkipTLSVerify
    IsControllerCloud := p.IsControllerCloud }

/-- A controller holding at most one cloud: `CreateCloud` and `UpdateCloud` store the cloud
built from their input, `ReadCloud` returns the stored cloud when asked for it by its name and
an error otherwise, `RemoveCloud` forgets it. No call fails for another reason. -/
def storeClient : Client (Option Cloud) where
  ReadCloud input s :=
    match s with
    | some cloud => if cloud.Name = input.Name then (.ok cloud, s) else (.error "cloud not found", s)
    | none => (.error "cloud not found", s)
  CreateCloud input _ := (none, some (CloudFromParams input.Name input.Params))
  UpdateCloud input _ := (none, some (CloudFromParams input.Name input.Params))
  RemoveCloud _ _ := (none, none)

/-! ## Concrete inputs -/

/-- The configuration of the acceptance test `TestAcc_ResourceCloud_Basic`, before creation. -/
def basicConfig : ResourceData :=
  { Id := "", name := "tfcloud-x", type := "lxd", host_cloud_region := "",
    auth_types := [.str "certificate"], endpoint := "https://lxd.internal:8443",
    identity_endpoint := "", storage_endpoint := "", regions := [], config := [],
    region_config := [], ca_certificates := [], skip_tls_verify := false,
    is_controller_cloud := false, changed := [] }

/-- A remote region with an endpoint only. -/
def eastRegion : Region :=
  { Name := "east", Endpoint := "https://east.example", IdentityEndpoint := "",
    StorageEndpoint := "" }

/-- A remote region with a storage endpoint only. -/
def westRegion : Region :=
  { Name := "west", Endpoint := "", IdentityEndpoint := "",
    StorageEndpoint := "https://store.west.example" }

/-- Two remote regions. -/
def twoRegions : Slice Region := some [eastRegion, westRegion]

/-- A client over a controller without state whose every call succeeds; `ReadCloud` answers
with a cloud of the name it is asked for. -/
def okClient : Client Unit where
  ReadCloud input s :=
    (.ok { Name := input.Name, Type_ := "lxd", HostCloudRegion := "", AuthTypes := ["certificate"],
           Endpoint := "", IdentityEndpoint := "", StorageEndpoint := "", Regions := none,
           Config := [], RegionConfig := [], CACertificates := [], SkipTLSVerify := false,
           IsControllerCloud := false }, s)
  CreateCloud _ s := (none, s)
  UpdateCloud _ s := (none, s)
  RemoveCloud _ s := (none, s)

/-- A client over a controller without state whose every call fails. -/
def failingClient : Client Unit where
  ReadCloud _ s := (.error "connection refused", s)
  CreateCloud _ s := (some "connection refused", s)
  UpdateCloud _ s := (some "connection refused", s)
  RemoveCloud _ s := (some "connection refused", s)

/-- The basic configuration with one `region_config` entry. -/
def regionConfigConfig : ResourceData :=
  { basicConfig with
    region_config := [[("name", .str "east"), ("config", .attrs [("vpc-id", "vpc-1")])]] }

/-- The basic configuration with the `regions` attribute `parseRegions` gives for the one
region `eastRegion`. -/
def oneRegionConfig : ResourceData :=
  { basicConfig with regions := (parseRegions (some [eastRegion])).toList }

/-- The `params.Cloud` of the basic configuration. -/
def basicParams : params.Cloud :=
  { params.Cloud.zero with
    Type_ := "lxd", AuthTypes := ["certificate"], Endpoint := "https://lxd.internal:8443" }

/-- A client over a controller without state: `CreateCloud` succeeds, every other call fails. -/
def readFailsClient : Client Unit where
  ReadCloud _ s := (.error "cloud not found", s)
  CreateCloud _ s := (none, s)
  UpdateCloud _ s := (some "cloud not found", s)
  RemoveCloud _ s := (some "cloud not found", s)

/-- The cloud a controller reports for its own cloud. -/
def controllerCloud : Cloud :=
  { Name := "tfcloud-x", Type_ := "lxd", HostCloudRegion := "", AuthTypes := ["certificate"],
    Endpoint := "https://lxd.internal:8443", IdentityEndpoint := "", StorageEndpoint := "",
    Regions := none, Config := [], RegionConfig := [], CACertificates := [],
    SkipTLSVerify := false, IsControllerCloud := true }

/-- A client over a controller without state whose `ReadCloud` answers `controllerCloud`. -/
def controllerCloudClient : Client Unit where
  ReadCloud _ s := (.ok controllerCloud, s)
  CreateCloud _ s := (none, s)
  UpdateCloud _ s := (none, s)
  RemoveCloud _ s := (none, s)

/-- The ten attributes `resourceCloudUpdate` asks `d.HasChange` about. -/
def trackedAttributes : List String :=
  ["host_cloud_region", "auth_types", "endpoint", "identity_endpoint", "storage_endpoint",
   "config", "ca_certificates", "skip_tls_verify", "regions", "region_config"]

end Juju

/-! ## Properties of `strings.Split` -/

namespace strings

theorem splitChars_ne_nil (sep : Char) (l : List Char) : splitChars sep l ≠ [] := by
  induction l with
  | nil => simp [splitChars]
  | cons c cs ih =>
    unfold splitChars
    split
    · simp
    · split <;> simp

theorem splitChars_length (sep : Char) (l : List Char) :
    (splitChars sep l).length = l.count sep + 1 := by
  induction l with
  | nil => simp [splitChars]
  | cons c cs ih =>
    unfold splitChars
    by_cases h : c = sep
    · subst h
      simp [ih]
    · have hcount : (c :: cs).count sep = cs.count sep := by
        simp [List.count_cons, h]
      rw [if_neg h, hcount, ← ih]
      cases hs : splitChars sep cs with
      | nil => exact absurd hs (splitChars_ne_nil sep cs)
      | cons a t => simp

theorem splitChars_head (sep : Char) (l : List Char) :
    (splitChars sep l)[0]? = some (l.takeWhile (fun c => c != sep)) := by
  induction l with
  | nil => simp [splitChars]
  | cons c cs ih =>
    unfold splitChars
    by_cases h : c = sep
    · subst h
      simp
    · rw [if_neg h]
      cases hs : splitChars sep cs with
      | nil => exact absurd hs (splitChars_ne_nil sep cs)
      | cons a t =>
        rw [hs] at ih
        simp at ih
        simp [List.takeWhile_cons, h, ih]

theorem splitChars_append_sep (sep : Char) (pre rest : List Char) (hpre : sep ∉ pre) :
    splitChars sep (pre ++ sep :: rest) = pre :: splitChars sep rest := by
  induction pre with
  | nil => simp [splitChars]
  | cons c cs ih =>
    have hc : c ≠ sep := fun h => hpre (by simp [h])
    have hcs : sep ∉ cs := fun h => hpre (by simp [h])
    have e : splitChars sep (c :: (cs ++ sep :: rest)) =
        match splitChars sep (cs ++ sep :: rest) with
        | [] => [[c]]
        | h :: t => (c :: h) :: t := by
      rw [splitChars, if_neg hc]
    rw [List.cons_append, e, ih hcs]

theorem takeWhile_ne_eq_self_iff (sep : Char) (l : List Char) :
    l.takeWhile (fun c => c != sep) = l ↔ sep ∉ l := by
  induction l with
  | nil => simp
  | cons c cs ih =>
    by_cases h : c = sep
    · subst h
      simp [List.takeWhile_cons]
    · have h2 : ¬ sep = c := fun e => h e.symm
      simp [List.takeWhile_cons, h, h2, ih]

theorem Split_length (s : String) (sep : Char) :
    (Split s sep).length = s.data.count sep + 1 := by
  simp [Split, splitChars_length]

theorem one_lt_Split_length_iff (s : String) (sep : Char) :
    1 < (Split s sep).length ↔ sep ∈ s.data := by
  rw [Split_length]
  constructor
  · intro h
    exact List.count_pos_iff.mp (by omega)
  · intro h
    have := List.count_pos_iff.mpr h
    omega

theorem Split_index_one_isSome_iff (s : String) (sep : Char) :
    ((Split s sep)[1]?).isSome ↔ sep ∈ s.data := by
  rw [← one_lt_Split_length_iff]
  cases h : (Split s sep)[1]? with
  | none =>
    have := List.getElem?_eq_none_iff.mp h
    simp
    omega
  | some x =>
    have : 1 < (Split s sep).length := by
      by_contra hc
      have := List.getElem?_eq_none_iff.mpr (Nat.le_of_not_lt hc)
      simp [this] at h
    simp [this]

theorem Split_cloud_id (name : String) :
    (Split ("cloud:" ++ name) ':')[1]? = some (String.mk (name.data.takeWhile (fun c => c != ':'))) := by
  have h : ("cloud:" ++ name).data = ['c', 'l', 'o', 'u', 'd'] ++ ':' :: name.data := by
    simp [String.data_append]
  have hpre : ':' ∉ ['c', 'l', 'o', 'u', 'd'] := by decide
  unfold Split
  rw [h, splitChars_append_sep ':' _ _ hpre]
  have := splitChars_head ':' name.data
  cases hs : splitChars ':' name.data with
  | nil => exact absurd hs (splitChars_ne_nil _ _)
  | cons a t =>
    rw [hs] at this
    simp at this
    simp [this]

end strings

namespace Juju

/-! ## `parseRegions` -/

theorem foldl_append_eq_map {α β : Type} (f : α → β) (l : List α) (acc : List β) :
    l.foldl (fun (out : Slice β) x => Slice.append out (f x)) (some acc) = some (acc ++ l.map f) := by
  induction l generalizing acc with
  | nil => simp
  | cons x xs ih =>
    have e : Slice.append (some acc) (f x) = some (acc ++ [f x]) := rfl
    rw [List.foldl_cons, e, ih]
    simp

theorem parseRegions_eq_map (rs : Slice Region) :
    parseRegions rs = some (rs.toList.map parseRegions.entry) := by
  unfold parseRegions Slice.make0
  rw [foldl_append_eq_map]
  simp

theorem entry_name (r : Region) :
    GoMap.get (parseRegions.entry r) "name" = some (.str r.Name) := by
  by_cases h1 : r.Endpoint = "" <;> by_cases h2 : r.IdentityEndpoint = "" <;>
    by_cases h3 : r.StorageEndpoint = "" <;>
    simp [parseRegions.entry, GoMap.set, GoMap.get, List.lookup, h1, h2, h3]

theorem entry_endpoint (r : Region) :
    GoMap.get (parseRegions.entry r) "endpoint" =
      if r.Endpoint = "" then none else some (.str r.Endpoint) := by
  by_cases h1 : r.Endpoint = "" <;> by_cases h2 : r.IdentityEndpoint = "" <;>
    by_cases h3 : r.StorageEndpoint = "" <;>
    simp [parseRegions.entry, GoMap.set, GoMap.get, List.lookup, h1, h2, h3]

theorem entry_identity_endpoint (r : Region) :
    GoMap.get (parseRegions.entry r) "identity_endpoint" =
      if r.IdentityEndpoint = "" then none else some (.str r.IdentityEndpoint) := by
  by_cases h1 : r.Endpoint = "" <;> by_cases h2 : r.IdentityEndpoint = "" <;>
    by_cases h3 : r.StorageEndpoint = "" <;>
    simp [parseRegions.entry, GoMap.set, GoMap.get, List.lookup, h1, h2, h3]

theorem entry_storage_endpoint (r : Region) :
    GoMap.get (parseRegions.entry r) "storage_endpoint" =
      if r.StorageEndpoint = "" then none else some (.str r.StorageEndpoint) := by
  by_cases h1 : r.Endpoint = "" <;> by_cases h2 : r.IdentityEndpoint = "" <;>
    by_cases h3 : r.StorageEndpoint = "" <;>
    simp [parseRegions.entry, GoMap.set, GoMap.get, List.lookup, h1, h2, h3]

theorem entry_other (r : Region) (k : String)
    (hk : k ∉ ["name", "endpoint", "identity_endpoint", "storage_endpoint"]) :
    GoMap.get (parseRegions.entry r) k = none := by
  simp at hk
  obtain ⟨k1, k2, k3, k4⟩ := hk
  have e1 : (k == "name") = false := by simp [k1]
  have e2 : (k == "endpoint") = false := by simp [k2]
  have e3 : (k == "identity_endpoint") = false := by simp [k3]
  have e4 : (k == "storage_endpoint") = false := by simp [k4]
  by_cases h1 : r.Endpoint = "" <;> by_cases h2 : r.IdentityEndpoint = "" <;>
    by_cases h3 : r.StorageEndpoint = "" <;>
    simp [parseRegions.entry, GoMap.set, GoMap.get, List.lookup, h1, h2, h3, e1, e2, e3, e4]

theorem entry_keys_nodup (r : Region) : ((parseRegions.entry r).map Prod.fst).Nodup := by
  by_cases h1 : r.Endpoint = "" <;> by_cases h2 : r.IdentityEndpoint = "" <;>
    by_cases h3 : r.StorageEndpoint = "" <;>
    simp [parseRegions.entry, GoMap.set, h1, h2, h3]

end Juju

namespace Juju

/-- C8: `parseRegions` flattens a region list one-to-one and in order. The result is a non-nil
slice of the same length as the input; the map at index `i` has key `name` with the value
`rs[i].Name`, has key `endpoint` (resp. `identity_endpoint`, `storage_endpoint`) exactly when the
field `Endpoint` (resp. `IdentityEndpoint`, `StorageEndpoint`) of `rs[i]` is non-empty, then with
that field as its value, has no other key and no key twice; for the nil or empty input the
result is the empty non-nil slice. -/
theorem parseRegions_flattens_in_order (rs : Slice Region) :
    (parseRegions rs).isSome = true ∧
    (parseRegions rs).toList.length = rs.toList.length ∧
    (rs.toList = [] → parseRegions rs = some []) ∧
    ∀ (i : Nat) (r : Region), rs.toList[i]? = some r →
      ∃ m : GoMap, (parseRegions rs).toList[i]? = some m ∧
        GoMap.get m "name" = some (.str r.Name) ∧
        GoMap.get m "endpoint" = (if r.Endpoint = "" then none else some (.str r.Endpoint)) ∧
        GoMap.get m "identity_endpoint" =
          (if r.IdentityEndpoint = "" then none else some (.str r.IdentityEndpoint)) ∧
        GoMap.get m "storage_endpoint" =
          (if r.StorageEndpoint = "" then none else some (.str r.StorageEndpoint)) ∧
        (∀ k : String, k ∉ ["name", "endpoint", "identity_endpoint", "storage_endpoint"] →
          GoMap.get m k = none) ∧
        (m.map Prod.fst).Nodup := by
  rw [parseRegions_eq_map]
  refine ⟨rfl, by simp [Slice.toList], ?_, ?_⟩
  · intro h
    simp [h]
  · intro i r hi
    refine ⟨parseRegions.entry r, ?_, entry_name r, entry_endpoint r, entry_identity_endpoint r,
      entry_storage_endpoint r, entry_other r, entry_keys_nodup r⟩
    have e : (rs.toList.map parseRegions.entry)[i]? = some (parseRegions.entry r) := by
      rw [List.getElem?_map, hi]
      rfl
    exact e

/-- The map `parseRegions` builds for the second of `twoRegions`, and the result on the nil
slice. -/
theorem parseRegions_flattens_in_order_witness :
    twoRegions.toList[1]? = some westRegion ∧
    (∃ m : GoMap, (parseRegions twoRegions).toList[1]? = some m ∧
      GoMap.get m "name" = some (.str "west") ∧
      GoMap.get m "endpoint" = none ∧
      GoMap.get m "identity_endpoint" = none ∧
      GoMap.get m "storage_endpoint" = some (.str "https://store.west.example") ∧
      (∀ k : String, k ∉ ["name", "endpoint", "identity_endpoint", "storage_endpoint"] →
        GoMap.get m k = none) ∧
      (m.map Prod.fst).Nodup) ∧
    parseRegions none = some [] :=
  ⟨by decide,
   (parseRegions_flattens_in_order twoRegions).2.2.2 1 westRegion (by decide),
   (parseRegions_flattens_in_order none).2.2.1 (by decide)⟩

/-- C10: the index expression `id[1]` of `resourceCloudRead` is in range exactly when the
resource ID contains a `":"`. For every resource ID, the split of the ID on `":"` has more than
one segment if and only if the ID contains `":"`; for an ID without `":"` the handler ends in an
index-out-of-range panic before any client call; for an ID with `":"` it does not panic and
makes one `ReadCloud` call. -/
theorem resourceCloudRead_index_in_range_iff {σ : Type} (client : Client σ) (d : ResourceData)
    (s : σ) :
    (1 < (strings.Split d.Id ':').length ↔ ':' ∈ d.Id.data) ∧
    (':' ∉ d.Id.data →
      (resourceCloudRead client d s).diags = .error .indexOutOfRange ∧
      (resourceCloudRead client d s).calls = [] ∧
      (resourceCloudRead client d s).d = d) ∧
    (':' ∈ d.Id.data →
      (∃ ds, (resourceCloudRead client d s).diags = .ok ds) ∧
      ∃ name, (resourceCloudRead client d s).calls = [.ReadCloud { Name := name }]) := by
  refine ⟨strings.one_lt_Split_length_iff d.Id ':', ?_, ?_⟩
  · intro h
    have hn : (strings.Split d.Id ':')[1]? = none := by
      cases hs : (strings.Split d.Id ':')[1]? with
      | none => rfl
      | some x =>
        have := (strings.Split_index_one_isSome_iff d.Id ':').mp (by simp [hs])
        exact absurd this h
    simp [resourceCloudRead, hn]
  · intro h
    have hsome := (strings.Split_index_one_isSome_iff d.Id ':').mpr h
    obtain ⟨name, hname⟩ := Option.isSome_iff_exists.mp hsome
    unfold resourceCloudRead
    simp only [hname]
    cases hr : client.ReadCloud { Name := name } s with
    | mk res s' =>
      cases res with
      | error err => exact ⟨⟨_, rfl⟩, name, rfl⟩
      | ok response => exact ⟨⟨_, rfl⟩, name, rfl⟩

/-- A bare cloud name as resource ID, as the passthrough importer may supply it. -/
theorem resourceCloudRead_index_in_range_iff_witness :
    ':' ∉ ({ basicConfig with Id := "tfcloud-x" } : ResourceData).Id.data ∧
    (resourceCloudRead okClient { basicConfig with Id := "tfcloud-x" } ()).diags =
      .error .indexOutOfRange ∧
    (resourceCloudRead okClient { basicConfig with Id := "tfcloud-x" } ()).calls = [] ∧
    (resourceCloudRead okClient { basicConfig with Id := "tfcloud-x" } ()).d =
      { basicConfig with Id := "tfcloud-x" } :=
  ⟨by decide,
   (resourceCloudRead_index_in_range_iff okClient { basicConfig with Id := "tfcloud-x" } ()).2.1
     (by decide)⟩

end Juju

namespace Juju

/-- C6: `resourceCloudDelete` deletes by name. It makes exactly one client call, `RemoveCloud`
with `Name` equal to the `name` attribute; if the call succeeds the diagnostics are empty and
the resource data is the old one with the ID set to the empty string; if it fails with `err`
the diagnostics carry `err` and the resource data (ID and attributes) is unchanged. -/
theorem resourceCloudDelete_by_name {σ : Type} (client : Client σ) (d : ResourceData) (s : σ) :
    (resourceCloudDelete client d s).calls = [.RemoveCloud { Name := d.name }] ∧
    (resourceCloudDelete client d s).ctrl = (client.RemoveCloud { Name := d.name } s).2 ∧
    ((client.RemoveCloud { Name := d.name } s).1 = none →
      (resourceCloudDelete client d s).diags = .ok [] ∧
      (resourceCloudDelete client d s).d = { d with Id := "" }) ∧
    (∀ err : Error, (client.RemoveCloud { Name := d.name } s).1 = some err →
      (resourceCloudDelete client d s).diags = .ok [err] ∧
      (resourceCloudDelete client d s).d = d) := by
  cases h : client.RemoveCloud { Name := d.name } s with
  | mk e s' =>
    cases e with
    | none => simp [resourceCloudDelete, h]
    | some err => simp [resourceCloudDelete, h]

/-- Deleting the cloud of the basic configuration, once with a client that succeeds and once
with a client that fails. -/
theorem resourceCloudDelete_by_name_witness :
    ((okClient.RemoveCloud { Name := basicConfig.name } ()).1 = none ∧
      (resourceCloudDelete okClient { basicConfig with Id := "cloud:tfcloud-x" } ()).diags = .ok [] ∧
      (resourceCloudDelete okClient { basicConfig with Id := "cloud:tfcloud-x" } ()).d =
        { basicConfig with Id := "" }) ∧
    ((failingClient.RemoveCloud { Name := basicConfig.name } ()).1 = some "connection refused" ∧
      (resourceCloudDelete failingClient { basicConfig with Id := "cloud:tfcloud-x" } ()).diags =
        .ok ["connection refused"] ∧
      (resourceCloudDelete failingClient { basicConfig with Id := "cloud:tfcloud-x" } ()).d =
        { basicConfig with Id := "cloud:tfcloud-x" }) :=
  ⟨⟨by decide,
    (resourceCloudDelete_by_name okClient { basicConfig with Id := "cloud:tfcloud-x" } ()).2.2.1
      (by decide)⟩,
   ⟨by decide,
    (resourceCloudDelete_by_name failingClient { basicConfig with Id := "cloud:tfcloud-x" }
      ()).2.2.2 "connection refused" (by decide)⟩⟩

/-- The resource ID is left alone by `resourceCloudRead`. -/
theorem resourceCloudRead_Id {σ : Type} (client : Client σ) (d : ResourceData) (s : σ) :
    (resourceCloudRead client d s).d.Id = d.Id := by
  cases h1 : (strings.Split d.Id ':')[1]? with
  | none => simp [resourceCloudRead, h1]
  | some name =>
    cases hr : client.ReadCloud { Name := name } s with
    | mk res s' =>
      cases res with
      | error err => simp [resourceCloudRead, h1, hr]
      | ok response => simp [resourceCloudRead, h1, hr]

/-- The calls of `resourceCloudRead` on an ID written by `resourceCloudCreate`. -/
theorem resourceCloudRead_calls_of_cloud_id {σ : Type} (client : Client σ) (d : ResourceData)
    (s : σ) (name : String) (h : d.Id = "cloud:" ++ name) :
    (resourceCloudRead client d s).calls =
      [.ReadCloud { Name := String.mk (name.data.takeWhile (fun c => c != ':')) }] := by
  have h1 := strings.Split_cloud_id name
  cases hr : client.ReadCloud { Name := String.mk (name.data.takeWhile (fun c => c != ':')) } s with
  | mk res s' =>
    cases res with
    | error err => simp [resourceCloudRead, h, h1, hr]
    | ok response => simp [resourceCloudRead, h, h1, hr]

/-- C9: the resource ID written by create is read back as the cloud name up to its first
`":"`. Whenever `resourceCloudCreate` gets past `CreateCloud` (the input is prepared and the
call returns no error) it leaves the ID `"cloud:"` followed by the `name` attribute; the name
`resourceCloudRead` extracts from such an ID, the second segment of its split on `":"`, is the
longest initial part of the name without `":"`, and that is the name asked of `ReadCloud`; it
equals the name if and only if the name contains no `":"`. -/
theorem resource_id_read_back_as_name {σ : Type} (client : Client σ) (d : ResourceData) (s s' : σ)
    (cloudParams : params.Cloud) (hp : prepareCloudInput d = .ok cloudParams)
    (hc : client.CreateCloud { Name := d.name, Params := cloudParams } s = (none, s')) :
    (resourceCloudCreate client d s).d.Id = "cloud:" ++ d.name ∧
    (strings.Split ("cloud:" ++ d.name) ':')[1]? =
      some (String.mk (d.name.data.takeWhile (fun c => c != ':'))) ∧
    (resourceCloudCreate client d s).calls =
      [.CreateCloud { Name := d.name, Params := cloudParams },
       .ReadCloud { Name := String.mk (d.name.data.takeWhile (fun c => c != ':')) }] ∧
    (String.mk (d.name.data.takeWhile (fun c => c != ':')) = d.name ↔ ':' ∉ d.name.data) := by
  have hId := resourceCloudRead_Id client { d with Id := "cloud:" ++ d.name } s'
  have hcalls := resourceCloudRead_calls_of_cloud_id client
    { d with Id := "cloud:" ++ d.name } s' d.name rfl
  refine ⟨?_, strings.Split_cloud_id d.name, ?_, ?_⟩
  · cases hd : (resourceCloudRead client { d with Id := "cloud:" ++ d.name } s').diags with
    | error p => simpa [resourceCloudCreate, hp, hc, hd] using hId
    | ok ds => simpa [resourceCloudCreate, hp, hc, hd] using hId
  · cases hd : (resourceCloudRead client { d with Id := "cloud:" ++ d.name } s').diags with
    | error p => simpa [resourceCloudCreate, hp, hc, hd] using hcalls
    | ok ds => simpa [resourceCloudCreate, hp, hc, hd] using hcalls
  · rw [← strings.takeWhile_ne_eq_self_iff ':' d.name.data]
    constructor
    · intro h
      exact congrArg String.data h
    · intro h
      rw [h]

/-- Creating a cloud named `a:b`: the ID is `cloud:a:b` and the name read back is `a`. -/
theorem resource_id_read_back_as_name_witness :
    (resourceCloudCreate okClient { basicConfig with name := "a:b" } ()).d.Id = "cloud:" ++ "a:b" ∧
    (strings.Split ("cloud:" ++ "a:b") ':')[1]? =
      some (String.mk ("a:b".data.takeWhile (fun c => c != ':'))) ∧
    (resourceCloudCreate okClient { basicConfig with name := "a:b" } ()).calls =
      [.CreateCloud { Name := "a:b", Params :=
          { params.Cloud.zero with Type_ := "lxd", AuthTypes := ["certificate"],
                                   Endpoint := "https://lxd.internal:8443" } },
       .ReadCloud { Name := String.mk ("a:b".data.takeWhile (fun c => c != ':')) }] ∧
    (String.mk ("a:b".data.takeWhile (fun c => c != ':')) = "a:b" ↔ ':' ∉ "a:b".data) :=
  resource_id_read_back_as_name okClient { basicConfig with name := "a:b" } () ()
    { params.Cloud.zero with Type_ := "lxd", AuthTypes := ["certificate"],
                             Endpoint := "https://lxd.internal:8443" }
    (by decide) (by decide)

end Juju

namespace Juju

/-! ## `prepareCloudInput` -/

theorem assertStrings_ok (l : List Any) (h : l.all (fun a => Any.isString (some a)) = true) :
    ∃ ss, assertStrings l = .ok ss ∧ ss.map Any.str = l := by
  induction l with
  | nil => exact ⟨[], rfl, rfl⟩
  | cons x xs ih =>
    simp only [List.all_cons, Bool.and_eq_true] at h
    obtain ⟨ss, hss, hmap⟩ := ih h.2
    cases x with
    | str s => exact ⟨s :: ss, by simp [assertStrings, Any.assertString, hss], by simp [hmap]⟩
    | bool b => simp [Any.isString] at h
    | attrs m => simp [Any.isString] at h

theorem regionsLoop_ok_eq (acc out : Slice params.CloudRegion) (l : List GoMap)
    (h : prepareCloudInput.regionsLoop acc l = .ok out) : out = acc := by
  induction l with
  | nil =>
    simp [prepareCloudInput.regionsLoop] at h
    exact h.symm
  | cons r rest ih =>
    unfold prepareCloudInput.regionsLoop at h
    cases hr : prepareCloudInput.cloudRegion r with
    | error p => simp [hr] at h
    | ok c =>
      simp only [hr] at h
      exact ih h

theorem cloudRegion_ok (r : GoMap) (h : Any.isString (GoMap.get r "name") = true) :
    ∃ c, prepareCloudInput.cloudRegion r = .ok c := by
  cases hn : GoMap.get r "name" with
  | none => simp [hn, Any.isString] at h
  | some x =>
    cases x with
    | str s =>
      simp only [prepareCloudInput.cloudRegion, hn, Any.assertString]
      exact ⟨_, rfl⟩
    | bool b => simp [hn, Any.isString] at h
    | attrs m => simp [hn, Any.isString] at h

theorem regionsLoop_ok (acc : Slice params.CloudRegion) (l : List GoMap)
    (h : l.all (fun r => Any.isString (GoMap.get r "name")) = true) :
    prepareCloudInput.regionsLoop acc l = .ok acc := by
  induction l with
  | nil => rfl
  | cons r rest ih =>
    simp only [List.all_cons, Bool.and_eq_true] at h
    obtain ⟨c, hc⟩ := cloudRegion_ok r h.1
    simp [prepareCloudInput.regionsLoop, hc, ih h.2]

theorem regionConfigLoop_nil_map_error (l : List GoMap) (h : l ≠ []) :
    ∃ p, prepareCloudInput.regionConfigLoop none l = .error p := by
  cases l with
  | nil => exact absurd rfl h
  | cons r rest =>
    unfold prepareCloudInput.regionConfigLoop
    cases hn : Any.assertString (GoMap.get r "name") with
    | error p => exact ⟨p, rfl⟩
    | ok name =>
      cases hc : Any.assertAttrs (GoMap.get r "config") with
      | error p => exact ⟨p, rfl⟩
      | ok config => exact ⟨.assignmentToNilMap, rfl⟩

theorem regionConfigLoop_nil_map_panic (l : List GoMap) (h : l ≠ [])
    (hs : l.all (fun r => Any.isString (GoMap.get r "name") && Any.isAttrs (GoMap.get r "config"))
      = true) :
    prepareCloudInput.regionConfigLoop none l = .error .assignmentToNilMap := by
  cases l with
  | nil => exact absurd rfl h
  | cons r rest =>
    simp only [List.all_cons, Bool.and_eq_true] at hs
    obtain ⟨⟨h1, h2⟩, -⟩ := hs
    cases hn : GoMap.get r "name" with
    | none => simp [hn, Any.isString] at h1
    | some x =>
      cases x with
      | bool b => simp [hn, Any.isString] at h1
      | attrs m => simp [hn, Any.isString] at h1
      | str name =>
        cases hc : GoMap.get r "config" with
        | none => simp [hc, Any.isAttrs] at h2
        | some y =>
          cases y with
          | bool b => simp [hc, Any.isAttrs] at h2
          | str m => simp [hc, Any.isAttrs] at h2
          | attrs config =>
            simp [prepareCloudInput.regionConfigLoop, hn, hc, Any.assertString, Any.assertAttrs,
              GoMap.assign]

end Juju

namespace Juju

theorem schemaConforming_parts (d : ResourceData) (hs : schemaConforming d = true) :
    d.auth_types.all (fun a => Any.isString (some a)) = true ∧
    d.ca_certificates.all (fun a => Any.isString (some a)) = true ∧
    d.regions.all (fun r => Any.isString (GoMap.get r "name")) = true ∧
    d.region_config.all
      (fun r => Any.isString (GoMap.get r "name") && Any.isAttrs (GoMap.get r "config")) = true := by
  unfold schemaConforming at hs
  simp only [Bool.and_eq_true] at hs
  obtain ⟨⟨⟨h1, h2⟩, h3⟩, h4⟩ := hs
  refine ⟨h1, h2, ?_, h4⟩
  rw [List.all_eq_true] at h3 ⊢
  intro r hr
  have := h3 r hr
  simp only [Bool.and_eq_true] at this
  exact this.1

theorem prepareCloudInput_ok (d : ResourceData) (hs : schemaConforming d = true)
    (h : d.region_config = []) :
    ∃ p, prepareCloudInput d = .ok p ∧
      p.Type_ = d.type ∧ p.HostCloudRegion = d.host_cloud_region ∧
      p.AuthTypes.map Any.str = d.auth_types ∧ p.Endpoint = d.endpoint ∧
      p.IdentityEndpoint = d.identity_endpoint ∧ p.StorageEndpoint = d.storage_endpoint ∧
      p.Config = d.config ∧ p.CACertificates.map Any.str = d.ca_certificates ∧
      p.SkipTLSVerify = d.skip_tls_verify ∧ p.Regions.toList = [] ∧ p.RegionConfig = none ∧
      p.IsControllerCloud = false := by
  obtain ⟨h1, h2, h3, -⟩ := schemaConforming_parts d hs
  obtain ⟨as, has, hasm⟩ := assertStrings_ok d.auth_types h1
  obtain ⟨cs, hcs, hcsm⟩ := assertStrings_ok d.ca_certificates h2
  have hr := regionsLoop_ok Slice.make0 d.regions h3
  simp only [prepareCloudInput, has, hr, h, hcs]
  by_cases e1 : d.host_cloud_region = "" <;> by_cases e2 : d.endpoint = "" <;>
    by_cases e3 : d.identity_endpoint = "" <;> by_cases e4 : d.storage_endpoint = "" <;>
    by_cases e5 : d.regions = [] <;> by_cases e6 : d.config = [] <;>
    by_cases e7 : d.ca_certificates = [] <;>
    simp [e1, e2, e3, e4, e5, e6, e7, params.Cloud.zero, hasm, hcsm, Slice.toList, Slice.make0,
      List.length_pos]

theorem prepareCloudInput_error_of_region_config (d : ResourceData) (h : d.region_config ≠ []) :
    ∃ p, prepareCloudInput d = .error p := by
  obtain ⟨q, hq⟩ := regionConfigLoop_nil_map_error d.region_config h
  have hlen : d.region_config.length > 0 := List.length_pos.mpr h
  unfold prepareCloudInput
  simp only [hq, hlen, if_true]
  cases assertStrings d.auth_types with
  | error p => exact ⟨p, rfl⟩
  | ok as =>
    simp only
    split
    · exact ⟨_, rfl⟩
    · exact ⟨_, rfl⟩

theorem prepareCloudInput_nil_map_panic (d : ResourceData) (hs : schemaConforming d = true)
    (h : d.region_config ≠ []) :
    prepareCloudInput d = .error .assignmentToNilMap := by
  obtain ⟨h1, h2, h3, h4⟩ := schemaConforming_parts d hs
  obtain ⟨as, has, hasm⟩ := assertStrings_ok d.auth_types h1
  have hr := regionsLoop_ok Slice.make0 d.regions h3
  have hq := regionConfigLoop_nil_map_panic d.region_config h h4
  have hlen : d.region_config.length > 0 := List.length_pos.mpr h
  simp only [prepareCloudInput, has, hr, hq, hlen, if_true]
  by_cases e5 : d.regions = []
  · simp [e5]
  · simp [e5, List.length_pos]

theorem region_config_nil_of_ok (d : ResourceData) (p : params.Cloud)
    (h : prepareCloudInput d = .ok p) : d.region_config = [] := by
  by_contra hne
  obtain ⟨q, hq⟩ := prepareCloudInput_error_of_region_config d hne
  rw [hq] at h
  cases h

theorem prepareCloudInput_Regions_empty (d : ResourceData) (p : params.Cloud)
    (h : prepareCloudInput d = .ok p) : p.Regions.toList = [] := by
  have hrc := region_config_nil_of_ok d p h
  cases has : assertStrings d.auth_types with
  | error q => simp [prepareCloudInput, has] at h
  | ok as =>
    cases hr : prepareCloudInput.regionsLoop Slice.make0 d.regions with
    | error q =>
      by_cases e5 : d.regions = []
      · simp [e5, prepareCloudInput.regionsLoop] at hr
      · simp [prepareCloudInput, has, hr, e5, List.length_pos] at h
    | ok out =>
      have := regionsLoop_ok_eq _ _ _ hr
      subst this
      cases hcs : assertStrings d.ca_certificates with
      | error q =>
        by_cases e7 : d.ca_certificates = []
        · simp [e7, assertStrings] at hcs
        · by_cases e5 : d.regions = [] <;>
            simp [prepareCloudInput, has, hr, hrc, hcs, e5, e7, List.length_pos] at h
      | ok cs =>
        by_cases e5 : d.regions = [] <;> by_cases e7 : d.ca_certificates = [] <;>
          simp [prepareCloudInput, has, hr, hrc, hcs, e5, e7, List.length_pos] at h <;>
          subst h <;> by_cases e1 : d.host_cloud_region = "" <;> by_cases e2 : d.endpoint = "" <;>
          by_cases e3 : d.identity_endpoint = "" <;> by_cases e4 : d.storage_endpoint = "" <;>
          by_cases e6 : d.config = [] <;>
          simp [e1, e2, e3, e4, e6, params.Cloud.zero, Slice.toList, Slice.make0]

end Juju

namespace Juju

/-! ## The lifecycle handlers -/

theorem resourceCloudRead_is_controller_cloud {σ : Type} (client : Client σ) (d : ResourceData)
    (s : σ) : (resourceCloudRead client d s).d.is_controller_cloud = d.is_controller_cloud := by
  cases h1 : (strings.Split d.Id ':')[1]? with
  | none => simp [resourceCloudRead, h1]
  | some name =>
    cases hr : client.ReadCloud { Name := name } s with
    | mk res s' =>
      cases res with
      | error err => simp [resourceCloudRead, h1, hr]
      | ok response => simp [resourceCloudRead, h1, hr]

theorem resourceCloudRead_surfaces_error {σ : Type} (client : Client σ) (d : ResourceData)
    (s s' : σ) (name : String) (err : Error) (h1 : (strings.Split d.Id ':')[1]? = some name)
    (hr : client.ReadCloud { Name := name } s = (.error err, s')) :
    resourceCloudRead client d s =
      { diags := .ok [err], d := d, ctrl := s', calls := [.ReadCloud { Name := name }] } := by
  simp [resourceCloudRead, h1, hr]

theorem resourceCloudCreate_surfaces_create_error {σ : Type} (client : Client σ)
    (d : ResourceData) (s s' : σ) (p : params.Cloud) (err : Error)
    (hp : prepareCloudInput d = .ok p)
    (hc : client.CreateCloud { Name := d.name, Params := p } s = (some err, s')) :
    resourceCloudCreate client d s =
      { diags := .ok [err], d := d, ctrl := s',
        calls := [.CreateCloud { Name := d.name, Params := p }] } := by
  simp [resourceCloudCreate, hp, hc]

theorem anyChange_eq (d : ResourceData) :
    (if d.HasChange "region_config" then true else
      if d.HasChange "regions" then true else
      if d.HasChange "skip_tls_verify" then true else
      if d.HasChange "ca_certificates" then true else
      if d.HasChange "config" then true else
      if d.HasChange "storage_endpoint" then true else
      if d.HasChange "identity_endpoint" then true else
      if d.HasChange "endpoint" then true else
      if d.HasChange "auth_types" then true else
      if d.HasChange "host_cloud_region" then true else false) =
    trackedAttributes.any d.HasChange := by
  simp only [trackedAttributes, List.any_cons, List.any_nil]
  cases d.HasChange "region_config" <;> cases d.HasChange "regions" <;>
    cases d.HasChange "skip_tls_verify" <;> cases d.HasChange "ca_certificates" <;>
    cases d.HasChange "config" <;> cases d.HasChange "storage_endpoint" <;>
    cases d.HasChange "identity_endpoint" <;> cases d.HasChange "endpoint" <;>
    cases d.HasChange "auth_types" <;> cases d.HasChange "host_cloud_region" <;> rfl

theorem resourceCloudUpdate_unchanged {σ : Type} (client : Client σ) (d : ResourceData) (s : σ)
    (h : trackedAttributes.any d.HasChange = false) :
    resourceCloudUpdate client d s = { diags := .ok [], d := d, ctrl := s, calls := [] } := by
  unfold resourceCloudUpdate
  simp only [anyChange_eq, h]
  rfl

theorem resourceCloudUpdate_changed {σ : Type} (client : Client σ) (d : ResourceData) (s : σ)
    (p : params.Cloud) (h : trackedAttributes.any d.HasChange = true)
    (hp : prepareCloudInput d = .ok p) :
    resourceCloudUpdate client d s =
      { diags := .ok (client.UpdateCloud { Name := d.name, Params := p } s).1.toList, d := d,
        ctrl := (client.UpdateCloud { Name := d.name, Params := p } s).2,
        calls := [.UpdateCloud { Name := d.name, Params := p }] } := by
  unfold resourceCloudUpdate
  simp only [anyChange_eq, h, hp]
  cases hu : client.UpdateCloud { Name := d.name, Params := p } s with
  | mk e s' =>
    cases e with
    | none => simp
    | some err => simp

theorem resourceCloudUpdate_panics {σ : Type} (client : Client σ) (d : ResourceData) (s : σ)
    (q : Panic) (h : trackedAttributes.any d.HasChange = true)
    (hp : prepareCloudInput d = .error q) :
    resourceCloudUpdate client d s = { diags := .error q, d := d, ctrl := s, calls := [] } := by
  unfold resourceCloudUpdate
  simp only [anyChange_eq, h, hp]
  rfl

end Juju

namespace Juju

/-- Create then read against the storing controller: for a schema-conforming configuration
without `region_config` entries, `resourceCloudCreate` returns empty diagnostics, leaves the ID
`"cloud:"` followed by the name, and the scalar attributes and `auth_types` of the state are the
configured ones. -/
theorem resourceCloudCreate_round_trip (d : ResourceData) (s : Option Cloud)
    (hs : schemaConforming d = true) (h : d.region_config = []) :
    (resourceCloudCreate storeClient d s).diags = .ok [] ∧
    (resourceCloudCreate storeClient d s).d.Id = "cloud:" ++ d.name ∧
    (resourceCloudCreate storeClient d s).d.name = d.name ∧
    (resourceCloudCreate storeClient d s).d.type = d.type ∧
    (resourceCloudCreate storeClient d s).d.endpoint = d.endpoint ∧
    (resourceCloudCreate storeClient d s).d.identity_endpoint = d.identity_endpoint ∧
    (resourceCloudCreate storeClient d s).d.storage_endpoint = d.storage_endpoint ∧
    (resourceCloudCreate storeClient d s).d.host_cloud_region = d.host_cloud_region ∧
    (resourceCloudCreate storeClient d s).d.skip_tls_verify = d.skip_tls_verify ∧
    (resourceCloudCreate storeClient d s).d.auth_types = d.auth_types := by
  obtain ⟨p, hp, h1, h2, h3, h4, h5, h6, h7, h8, h9, h10, h11, h12⟩ := prepareCloudInput_ok d hs h
  have hsplit := strings.Split_cloud_id d.name
  by_cases hname : d.name = String.mk (d.name.data.takeWhile (fun c => c != ':'))
  · simp [resourceCloudCreate, resourceCloudRead, storeClient, hp, hsplit, CloudFromParams, ← hname,
      h1, h2, h3, h4, h5, h6, h9]
  · simp [resourceCloudCreate, resourceCloudRead, storeClient, hp, hsplit, CloudFromParams, hname]

/-- C1 (the code departs from the claim): for the configuration whose `regions` attribute is
`parseRegions` of the one region `east`, `prepareCloudInput` returns params whose `Regions` list
is empty, where the claim asks for one `CloudRegion` named `east` with the same endpoints: the
loop builds each `cloudRegion` and never appends it. -/
theorem prepareCloudInput_drops_regions :
    oneRegionConfig.regions = (parseRegions (some [eastRegion])).toList ∧
    oneRegionConfig.regions.length = 1 ∧
    prepareCloudInput oneRegionConfig = .ok { basicParams with Regions := some [] } := by
  decide

/-- C2 (the code departs from the claim): on a schema-conforming configuration with one
`region_config` entry `prepareCloudInput` does not return: it panics on the assignment into the
map `cloudRegionConfig`, which is declared and never made. -/
theorem prepareCloudInput_panics_on_region_config :
    schemaConforming regionConfigConfig = true ∧
    regionConfigConfig.region_config.length = 1 ∧
    prepareCloudInput regionConfigConfig = .error .assignmentToNilMap := by
  decide

/-- C3 (the code departs from the claim): when `CreateCloud` succeeds and the `ReadCloud` made
inside `resourceCloudCreate` fails with `cloud not found`, `resourceCloudCreate` returns empty
diagnostics: the diagnostics of the inner `resourceCloudRead` are dropped. -/
theorem resourceCloudCreate_drops_read_error :
    (readFailsClient.ReadCloud { Name := "tfcloud-x" } ()).1 = .error "cloud not found" ∧
    (resourceCloudRead readFailsClient { basicConfig with Id := "cloud:tfcloud-x" } ()).diags =
      .ok ["cloud not found"] ∧
    (resourceCloudCreate readFailsClient basicConfig ()).calls =
      [.CreateCloud { Name := "tfcloud-x", Params := basicParams },
       .ReadCloud { Name := "tfcloud-x" }] ∧
    (resourceCloudCreate readFailsClient basicConfig ()).diags = .ok [] := by
  decide

/-- C4 (the code departs from the claim): with the `endpoint` attribute changed and one
`region_config` entry in the resource data, `resourceCloudUpdate` makes no `UpdateCloud` call:
it ends in the panic of `prepareCloudInput` before reaching the client. -/
theorem resourceCloudUpdate_panics_on_region_config :
    ({ regionConfigConfig with Id := "cloud:tfcloud-x", changed := ["endpoint"] } :
      ResourceData).HasChange "endpoint" = true ∧
    (resourceCloudUpdate okClient
      { regionConfigConfig with Id := "cloud:tfcloud-x", changed := ["endpoint"] } ()).calls = [] ∧
    (resourceCloudUpdate okClient
      { regionConfigConfig with Id := "cloud:tfcloud-x", changed := ["endpoint"] } ()).diags =
      .error .assignmentToNilMap := by
  decide

/-- C5 (the code departs from the claim): for the basic configuration with one `region_config`
entry, `resourceCloudCreate` against the storing controller ends in the panic of
`prepareCloudInput`: no call reaches the controller, nothing is stored and no state is written,
so nothing is read back. -/
theorem resourceCloudCreate_panics_on_region_config :
    schemaConforming regionConfigConfig = true ∧
    resourceCloudCreate storeClient regionConfigConfig none =
      { diags := .error .assignmentToNilMap, d := regionConfigConfig, ctrl := none, calls := [] } := by
  decide

/-- C7 (the code departs from the claim): when the controller answers `ReadCloud` with a cloud
whose `IsControllerCloud` is true, `resourceCloudRead` succeeds and the state attribute
`is_controller_cloud` is still false: the handler never sets it. -/
theorem resourceCloudRead_leaves_is_controller_cloud :
    (controllerCloudClient.ReadCloud { Name := "tfcloud-x" } ()).1 = .ok controllerCloud ∧
    controllerCloud.IsControllerCloud = true ∧
    (resourceCloudRead controllerCloudClient { basicConfig with Id := "cloud:tfcloud-x" } ()).calls =
      [.ReadCloud { Name := "tfcloud-x" }] ∧
    (resourceCloudRead controllerCloudClient { basicConfig with Id := "cloud:tfcloud-x" } ()).diags =
      .ok [] ∧
    (resourceCloudRead controllerCloudClient
      { basicConfig with Id := "cloud:tfcloud-x" } ()).d.is_controller_cloud = false := by
  decide

end Juju
